import Mathlib

/-!
A shallow embedding of the visibility-filter hook in safedelete/query.py
(class SafeDeleteQuery, a specialization of the host sql.Query).

The Python instance attributes are fields of a Lean structure; each method
becomes a function from the query state (plus arguments) to the new state.
The four visibility-mode constants, the deleted-marker field name and the
host extension points (can_filter, add_q, clone, compiler construction,
set_limits) live outside the source tree, so they are modelled from the
spec, as marked on each such definition.
-/

/-- Modelled from the spec: the visibility-mode constant DELETED_INVISIBLE,
supplied by the external config module (not among the source files); only
its distinctness from the other three constants matters. -/
def DELETED_INVISIBLE : Nat := 10

/-- Modelled from the spec: the visibility-mode constant
DELETED_VISIBLE_BY_FIELD from the external config module. -/
def DELETED_VISIBLE_BY_FIELD : Nat := 20

/-- Modelled from the spec: the visibility-mode constant DELETED_VISIBLE
from the external config module. -/
def DELETED_VISIBLE : Nat := 30

/-- Modelled from the spec: the visibility-mode constant DELETED_ONLY_VISIBLE
from the external config module. -/
def DELETED_ONLY_VISIBLE : Nat := 40

/-- Modelled from the spec: the deleted-marker field name FIELD_NAME from the
external config module. -/
def FIELD_NAME : String := "deleted"

/-- One conjunct of the query condition set. The source injects
Q(FIELD_NAME + "__isnull": b); this becomes a record holding the field name
and the isnull polarity b. -/
structure WhereCond where
  field : String
  isnull : Bool
deriving DecidableEq, Repr

/-- Modelled from the spec: the host compiler object; SQL generation reads the
condition set of the query state handed to it. -/
structure SQLCompiler where
  conds : List WhereCond
deriving DecidableEq, Repr

/-- The per-instance state of a SafeDeleteQuery. The first four fields are the
safedelete attributes of the source (written there with a _safedelete_ name
part); where_, low_mark and high_mark are the host sql.Query condition set and
slicing marks that the claims need. The defaults of filter_applied and
force_visibility are the class-level defaults of the source. -/
structure SafeDeleteQuery where
  visibility : Nat
  visibility_field : String
  filter_applied : Bool := false
  force_visibility : Option Nat := none
  where_ : List WhereCond := []
  low_mark : Nat := 0
  high_mark : Option Nat := none
deriving DecidableEq, Repr

namespace SafeDeleteQuery

/-- Modelled from the spec: the host predicate named there the
"can still be filtered" predicate (Django sql.Query.can_filter), which holds
until row limits are applied to the query. -/
def can_filter (q : SafeDeleteQuery) : Bool :=
  !(q.low_mark != 0 || q.high_mark.isSome)

/-- Modelled from the spec: the host operation add_q, which adds one conjunct
directly to the query condition set. -/
def add_q (q : SafeDeleteQuery) (c : WhereCond) : SafeDeleteQuery :=
  { q with where_ := q.where_ ++ [c] }

/-- check_field_filter from the source: if the visibility is
DELETED_VISIBLE_BY_FIELD and the visibility field is a key of the keyword
arguments, set force_visibility to DELETED_VISIBLE; otherwise do nothing.
Only key membership of the mapping is consulted, so the keyword arguments are
embedded as their list of keys. The Python method returns None; here the
side effect is the returned state. -/
def check_field_filter (q : SafeDeleteQuery) (kwargs : List String) : SafeDeleteQuery :=
  if q.visibility = DELETED_VISIBLE_BY_FIELD ∧ q.visibility_field ∈ kwargs then
    { q with force_visibility := some DELETED_VISIBLE }
  else q

/-- The two lines of _filter_visibility that compute the effective mode:
force_visibility if it is not None, else visibility. The getattr fallback of
the source always finds at least the class-level default None, which is the
none case here. -/
def effective_visibility (q : SafeDeleteQuery) : Nat :=
  match q.force_visibility with
  | some v => v
  | none => q.visibility

/-- The conjunct that _filter_visibility injects for the effective mode v:
Q(FIELD_NAME + "__isnull": v in (DELETED_INVISIBLE, DELETED_VISIBLE_BY_FIELD)),
transcribed from the add_q call of the source. -/
def injectedCond (v : Nat) : WhereCond :=
  { field := FIELD_NAME,
    isnull := v == DELETED_INVISIBLE || v == DELETED_VISIBLE_BY_FIELD }

/-- _filter_visibility from the source: return unchanged unless can_filter
holds and filter_applied is false; then, when the effective mode (the local
variable named visibility in the source, here effective_visibility) is one of
DELETED_INVISIBLE, DELETED_VISIBLE_BY_FIELD, DELETED_ONLY_VISIBLE, add the
isnull conjunct on FIELD_NAME (isnull true exactly for the first two) and set
filter_applied to true. -/
def _filter_visibility (q : SafeDeleteQuery) : SafeDeleteQuery :=
  if !q.can_filter || q.filter_applied then q
  else if q.effective_visibility = DELETED_INVISIBLE ∨
      q.effective_visibility = DELETED_VISIBLE_BY_FIELD ∨
      q.effective_visibility = DELETED_ONLY_VISIBLE then
    { q.add_q (injectedCond q.effective_visibility) with filter_applied := true }
  else q

/-- Modelled from the spec: the host clone mechanism produces a new query
carrying the host fields of the parent; the safedelete attributes of the new
instance start from their class-level defaults (the two without a default are
arbitrary here, and are overwritten by the explicit copies in clone). -/
def hostClone (q : SafeDeleteQuery) : SafeDeleteQuery :=
  { visibility := 0
    visibility_field := ""
    filter_applied := false
    force_visibility := none
    where_ := q.where_
    low_mark := q.low_mark
    high_mark := q.high_mark }

/-- clone from the source: call the host clone, then copy visibility,
visibility_field and filter_applied onto the new instance, and copy
force_visibility guarded by hasattr — which always holds, since the attribute
has a class-level default of None. -/
def clone (q : SafeDeleteQuery) : SafeDeleteQuery :=
  let c := q.hostClone
  let c := { c with visibility := q.visibility }
  let c := { c with visibility_field := q.visibility_field }
  let c := { c with filter_applied := q.filter_applied }
  let c := { c with force_visibility := q.force_visibility }
  c

/-- Modelled from the spec: host compiler construction, which captures the
condition set of the query state it is given. -/
def hostGetCompiler (q : SafeDeleteQuery) : SQLCompiler :=
  { conds := q.where_ }

/-- get_compiler from the source: filter visibility at the very end of the
step, then delegate to the host. The Python method mutates self and returns
the compiler; the pair carries both the compiler and the mutated state. -/
def get_compiler (q : SafeDeleteQuery) : SQLCompiler × SafeDeleteQuery :=
  let q1 := q._filter_visibility
  (q1.hostGetCompiler, q1)

/-- Modelled from the spec: the host row-limiting operation
(Django sql.Query.set_limits) updates the slicing marks and touches nothing
else of the state. -/
def hostSetLimits (q : SafeDeleteQuery) (low high : Option Nat) : SafeDeleteQuery :=
  let q1 :=
    match high with
    | some h =>
      match q.high_mark with
      | some hm => { q with high_mark := some (min hm (q.low_mark + h)) }
      | none => { q with high_mark := some (q.low_mark + h) }
    | none => q
  match low with
  | some l => { q1 with low_mark := q1.low_mark + l }
  | none => q1

/-- set_limits from the source: filter visibility before the query is sliced,
then delegate to the host. -/
def set_limits (q : SafeDeleteQuery) (low high : Option Nat) : SafeDeleteQuery :=
  q._filter_visibility.hostSetLimits low high

end SafeDeleteQuery

/-- A concrete query state with mode DELETED_INVISIBLE, used by witnesses. -/
def demoInvisible : SafeDeleteQuery :=
  { visibility := DELETED_INVISIBLE, visibility_field := "deleted" }

/-- A concrete query state with mode DELETED_VISIBLE_BY_FIELD and trigger key
"show_deleted", used by witnesses. -/
def demoByField : SafeDeleteQuery :=
  { visibility := DELETED_VISIBLE_BY_FIELD, visibility_field := "show_deleted" }

/-- A concrete query state with mode DELETED_VISIBLE, used by witnesses. -/
def demoVisible : SafeDeleteQuery :=
  { visibility := DELETED_VISIBLE, visibility_field := "deleted" }

/-- The state of demoInvisible after its filter has been applied, used by
witnesses. -/
def demoApplied : SafeDeleteQuery :=
  { demoInvisible with filter_applied := true }

/-- The state of demoByField after the trigger fired, used by witnesses. -/
def demoForced : SafeDeleteQuery :=
  { demoByField with force_visibility := some DELETED_VISIBLE }

namespace SafeDeleteQuery

theorem fv_of_pre_fail (q : SafeDeleteQuery)
    (h : q.can_filter = false ∨ q.filter_applied = true) :
    q._filter_visibility = q := by
  unfold _filter_visibility
  rcases h with h | h <;> simp [h]

theorem fv_inject (q : SafeDeleteQuery) (h1 : q.can_filter = true)
    (h2 : q.filter_applied = false)
    (h3 : q.effective_visibility = DELETED_INVISIBLE ∨
      q.effective_visibility = DELETED_VISIBLE_BY_FIELD ∨
      q.effective_visibility = DELETED_ONLY_VISIBLE) :
    q._filter_visibility =
      { q with
        where_ := q.where_ ++ [injectedCond q.effective_visibility],
        filter_applied := true } := by
  unfold _filter_visibility add_q
  rw [h1, h2]
  simp only [Bool.not_true, Bool.false_or, Bool.or_self, if_false]
  rw [if_pos h3]
  rfl

theorem fv_skip_mode (q : SafeDeleteQuery)
    (h3 : ¬(q.effective_visibility = DELETED_INVISIBLE ∨
      q.effective_visibility = DELETED_VISIBLE_BY_FIELD ∨
      q.effective_visibility = DELETED_ONLY_VISIBLE)) :
    q._filter_visibility = q := by
  unfold _filter_visibility
  rw [if_neg h3, ite_self]

theorem clone_eq (q : SafeDeleteQuery) : q.clone = q := rfl

theorem fv_force (q : SafeDeleteQuery) :
    (q._filter_visibility).force_visibility = q.force_visibility := by
  unfold _filter_visibility add_q
  split
  · rfl
  · split <;> rfl

theorem fv_visibility (q : SafeDeleteQuery) :
    (q._filter_visibility).visibility = q.visibility := by
  unfold _filter_visibility add_q
  split
  · rfl
  · split <;> rfl

theorem fv_marks (q : SafeDeleteQuery) :
    (q._filter_visibility).low_mark = q.low_mark ∧
    (q._filter_visibility).high_mark = q.high_mark := by
  unfold _filter_visibility add_q
  split
  · exact ⟨rfl, rfl⟩
  · split <;> exact ⟨rfl, rfl⟩

theorem fv_idem (q : SafeDeleteQuery) :
    q._filter_visibility._filter_visibility = q._filter_visibility := by
  cases hc : q.can_filter with
  | false => rw [fv_of_pre_fail q (Or.inl hc), fv_of_pre_fail q (Or.inl hc)]
  | true =>
    cases ha : q.filter_applied with
    | true => rw [fv_of_pre_fail q (Or.inr ha), fv_of_pre_fail q (Or.inr ha)]
    | false =>
      by_cases h3 : q.effective_visibility = DELETED_INVISIBLE ∨
        q.effective_visibility = DELETED_VISIBLE_BY_FIELD ∨
        q.effective_visibility = DELETED_ONLY_VISIBLE
      · rw [fv_inject q hc ha h3]
        exact fv_of_pre_fail _ (Or.inr rfl)
      · rw [fv_skip_mode q h3, fv_skip_mode q h3]

theorem hostSetLimits_only_marks (q : SafeDeleteQuery) (low high : Option Nat) :
    (q.hostSetLimits low high).where_ = q.where_ ∧
    (q.hostSetLimits low high).filter_applied = q.filter_applied ∧
    (q.hostSetLimits low high).force_visibility = q.force_visibility ∧
    (q.hostSetLimits low high).visibility = q.visibility ∧
    (q.hostSetLimits low high).visibility_field = q.visibility_field := by
  unfold hostSetLimits
  rcases high with _ | h <;> rcases low with _ | l <;>
    rcases hm : q.high_mark with _ | m <;>
    exact ⟨rfl, rfl, rfl, rfl, rfl⟩

end SafeDeleteQuery

open SafeDeleteQuery

/-- C1: for a filterable query with filter_applied false whose effective mode
is DELETED_INVISIBLE, DELETED_VISIBLE_BY_FIELD or DELETED_ONLY_VISIBLE,
_filter_visibility appends exactly one conjunct on the deleted-marker field to
the condition set — isnull for the first two modes, not-isnull for
DELETED_ONLY_VISIBLE — and sets filter_applied to true. -/
theorem C1_predicate_injection (q : SafeDeleteQuery)
    (h1 : q.can_filter = true) (h2 : q.filter_applied = false)
    (h3 : q.effective_visibility = DELETED_INVISIBLE ∨
      q.effective_visibility = DELETED_VISIBLE_BY_FIELD ∨
      q.effective_visibility = DELETED_ONLY_VISIBLE) :
    q._filter_visibility.where_ = q.where_ ++ [injectedCond q.effective_visibility] ∧
    (injectedCond q.effective_visibility).field = FIELD_NAME ∧
    q._filter_visibility.filter_applied = true ∧
    ((q.effective_visibility = DELETED_INVISIBLE ∨
        q.effective_visibility = DELETED_VISIBLE_BY_FIELD) →
      (injectedCond q.effective_visibility).isnull = true) ∧
    (q.effective_visibility = DELETED_ONLY_VISIBLE →
      (injectedCond q.effective_visibility).isnull = false) := by
  rw [q.fv_inject h1 h2 h3]
  refine ⟨rfl, rfl, rfl, ?_, ?_⟩
  · rintro (h | h) <;> rw [h] <;> decide
  · intro h
    rw [h]
    decide

/-- Witness for C1 at the concrete DELETED_INVISIBLE query demoInvisible. -/
theorem C1_predicate_injection_witness :
    demoInvisible._filter_visibility.where_ =
      demoInvisible.where_ ++ [injectedCond demoInvisible.effective_visibility] ∧
    (injectedCond demoInvisible.effective_visibility).field = FIELD_NAME ∧
    demoInvisible._filter_visibility.filter_applied = true ∧
    ((demoInvisible.effective_visibility = DELETED_INVISIBLE ∨
        demoInvisible.effective_visibility = DELETED_VISIBLE_BY_FIELD) →
      (injectedCond demoInvisible.effective_visibility).isnull = true) ∧
    (demoInvisible.effective_visibility = DELETED_ONLY_VISIBLE →
      (injectedCond demoInvisible.effective_visibility).isnull = false) :=
  C1_predicate_injection demoInvisible (by decide) (by decide) (Or.inl (by decide))

/-- C4: filter_applied is monotone — once true, check_field_filter,
_filter_visibility, get_compiler and set_limits all leave it true and the
filter call is then a complete no-op; a clone inherits the parent value rather
than a reset one; and applying the visibility filter twice equals applying it
once, so the conjunct is injected at most once. -/
theorem C4_filter_applied_monotone (q : SafeDeleteQuery) (kwargs : List String)
    (low high : Option Nat) :
    (q.filter_applied = true →
      (q.check_field_filter kwargs).filter_applied = true ∧
      q._filter_visibility = q ∧
      (q.get_compiler).2.filter_applied = true ∧
      (q.set_limits low high).filter_applied = true) ∧
    q.clone.filter_applied = q.filter_applied ∧
    q._filter_visibility._filter_visibility = q._filter_visibility := by
  refine ⟨fun h => ?_, ?_, q.fv_idem⟩
  · have hfv : q._filter_visibility = q := q.fv_of_pre_fail (Or.inr h)
    refine ⟨?_, hfv, ?_, ?_⟩
    · unfold SafeDeleteQuery.check_field_filter
      split <;> exact h
    · show q._filter_visibility.filter_applied = true
      rw [hfv]
      exact h
    · show (q._filter_visibility.hostSetLimits low high).filter_applied = true
      rw [hfv]
      exact ((q.hostSetLimits_only_marks low high).2.1).trans h
  · rw [SafeDeleteQuery.clone_eq]

/-- Witness for C4 at the concrete already-filtered query demoApplied. -/
theorem C4_filter_applied_monotone_witness :
    (demoApplied.check_field_filter []).filter_applied = true ∧
    demoApplied._filter_visibility = demoApplied ∧
    (demoApplied.get_compiler).2.filter_applied = true ∧
    (demoApplied.set_limits none none).filter_applied = true ∧
    demoApplied.clone.filter_applied = demoApplied.filter_applied ∧
    demoApplied._filter_visibility._filter_visibility = demoApplied._filter_visibility := by
  have h := C4_filter_applied_monotone demoApplied [] none none
  have h1 := h.1 rfl
  exact ⟨h1.1, h1.2.1, h1.2.2.1, h1.2.2.2, h.2.1, h.2.2⟩

/-- C6: check_field_filter sets force_visibility to DELETED_VISIBLE exactly
when the visibility is DELETED_VISIBLE_BY_FIELD and the visibility field is a
key of the keyword arguments; otherwise it is a no-op; it is a total function
of the state (no failure path) and in every case changes no other field. -/
theorem C6_check_field_filter_spec (q : SafeDeleteQuery) (kwargs : List String) :
    ((q.visibility = DELETED_VISIBLE_BY_FIELD ∧ q.visibility_field ∈ kwargs) →
      q.check_field_filter kwargs = { q with force_visibility := some DELETED_VISIBLE }) ∧
    (¬(q.visibility = DELETED_VISIBLE_BY_FIELD ∧ q.visibility_field ∈ kwargs) →
      q.check_field_filter kwargs = q) ∧
    ((q.check_field_filter kwargs).force_visibility ≠ q.force_visibility →
      q.visibility = DELETED_VISIBLE_BY_FIELD ∧ q.visibility_field ∈ kwargs ∧
        (q.check_field_filter kwargs).force_visibility = some DELETED_VISIBLE) ∧
    (q.check_field_filter kwargs).visibility = q.visibility ∧
    (q.check_field_filter kwargs).visibility_field = q.visibility_field ∧
    (q.check_field_filter kwargs).filter_applied = q.filter_applied ∧
    (q.check_field_filter kwargs).where_ = q.where_ := by
  unfold SafeDeleteQuery.check_field_filter
  by_cases hc : q.visibility = DELETED_VISIBLE_BY_FIELD ∧ q.visibility_field ∈ kwargs
  · rw [if_pos hc]
    exact ⟨fun _ => rfl, fun hn => absurd hc hn, fun _ => ⟨hc.1, hc.2, rfl⟩, rfl, rfl, rfl, rfl⟩
  · rw [if_neg hc]
    exact ⟨fun hcc => absurd hcc hc, fun _ => rfl, fun hne => absurd rfl hne, rfl, rfl, rfl, rfl⟩

/-- Witness for C6: the trigger fires on demoByField when the key is present
and is a no-op when it is absent. -/
theorem C6_check_field_filter_spec_witness :
    demoByField.check_field_filter ["show_deleted"] =
      { demoByField with force_visibility := some DELETED_VISIBLE } ∧
    demoByField.check_field_filter ["other"] = demoByField :=
  ⟨(C6_check_field_filter_spec demoByField ["show_deleted"]).1 (by decide),
   (C6_check_field_filter_spec demoByField ["other"]).2.1 (by decide)⟩

/-- C9: when the filtering preconditions fail — the host can_filter predicate
does not hold, or filter_applied is already true — _filter_visibility returns
without error and leaves the whole state unchanged. -/
theorem C9_precondition_noop (q : SafeDeleteQuery)
    (h : q.can_filter = false ∨ q.filter_applied = true) :
    q._filter_visibility = q :=
  q.fv_of_pre_fail h

/-- Witness for C9 at a concrete sliced query (low_mark set, so the host
can_filter predicate is false). -/
theorem C9_precondition_noop_witness :
    ({ demoInvisible with low_mark := 5 })._filter_visibility =
      { demoInvisible with low_mark := 5 } :=
  C9_precondition_noop { demoInvisible with low_mark := 5 } (Or.inl (by decide))

/-- C3: when the effective mode is DELETED_VISIBLE, _filter_visibility injects
nothing and in particular does not set filter_applied (the state is completely
unchanged); consequently, if force_visibility later moves the effective mode to
a filtering mode, a subsequent _filter_visibility call still injects the
conjunct and sets the flag. -/
theorem C3_visible_noop_then_force (q : SafeDeleteQuery) (m : Nat)
    (h : q.effective_visibility = DELETED_VISIBLE)
    (hm : m = DELETED_INVISIBLE ∨ m = DELETED_VISIBLE_BY_FIELD ∨
      m = DELETED_ONLY_VISIBLE) :
    q._filter_visibility = q ∧
    (q.can_filter = true → q.filter_applied = false →
      ({ q._filter_visibility with force_visibility := some m })._filter_visibility.where_ =
        q.where_ ++ [injectedCond m] ∧
      (injectedCond m).field = FIELD_NAME ∧
      ({ q._filter_visibility with
          force_visibility := some m })._filter_visibility.filter_applied = true) := by
  have hskip : q._filter_visibility = q := by
    apply q.fv_skip_mode
    rw [h]
    decide
  refine ⟨hskip, fun hcf hfa => ?_⟩
  rw [hskip]
  have he : ({ q with force_visibility := some m } : SafeDeleteQuery).effective_visibility
      = m := rfl
  have hinj := SafeDeleteQuery.fv_inject { q with force_visibility := some m } hcf hfa
    (by rw [he]; exact hm)
  rw [hinj]
  exact ⟨rfl, rfl, rfl⟩

/-- Witness for C3 at the concrete DELETED_VISIBLE query demoVisible, forced
afterwards to DELETED_ONLY_VISIBLE. -/
theorem C3_visible_noop_then_force_witness :
    demoVisible._filter_visibility = demoVisible ∧
    ({ demoVisible._filter_visibility with
        force_visibility := some DELETED_ONLY_VISIBLE })._filter_visibility.where_ =
      demoVisible.where_ ++ [injectedCond DELETED_ONLY_VISIBLE] ∧
    (injectedCond DELETED_ONLY_VISIBLE).field = FIELD_NAME ∧
    ({ demoVisible._filter_visibility with
        force_visibility := some DELETED_ONLY_VISIBLE })._filter_visibility.filter_applied
      = true := by
  have h := C3_visible_noop_then_force demoVisible DELETED_ONLY_VISIBLE (by decide)
    (Or.inr (Or.inr rfl))
  have h2 := h.2 (by decide) rfl
  exact ⟨h.1, h2.1, h2.2.1, h2.2.2⟩

/-- C5: a stored force_visibility takes precedence over visibility in the
effective mode; no operation of the component unsets it — check_field_filter
can only rewrite it to DELETED_VISIBLE, so the triggered state is never
reversed — and _filter_visibility, clone, get_compiler and set_limits all
carry the stored override through unchanged. -/
theorem C5_force_visibility_precedence (q : SafeDeleteQuery) (m : Nat)
    (kwargs : List String) (low high : Option Nat)
    (h : q.force_visibility = some m) :
    q.effective_visibility = m ∧
    ((q.check_field_filter kwargs).force_visibility).isSome = true ∧
    (m = DELETED_VISIBLE →
      (q.check_field_filter kwargs).force_visibility = some DELETED_VISIBLE) ∧
    q._filter_visibility.force_visibility = some m ∧
    q.clone.force_visibility = some m ∧
    (q.get_compiler).2.force_visibility = some m ∧
    (q.set_limits low high).force_visibility = some m := by
  refine ⟨?_, ?_, ?_, ?_, ?_, ?_, ?_⟩
  · unfold SafeDeleteQuery.effective_visibility
    rw [h]
  · unfold SafeDeleteQuery.check_field_filter
    split
    · rfl
    · rw [h]
      rfl
  · intro hm
    unfold SafeDeleteQuery.check_field_filter
    split
    · rfl
    · rw [h, hm]
  · rw [q.fv_force, h]
  · rw [SafeDeleteQuery.clone_eq, h]
  · show q._filter_visibility.force_visibility = some m
    rw [q.fv_force, h]
  · show (q._filter_visibility.hostSetLimits low high).force_visibility = some m
    rw [(SafeDeleteQuery.hostSetLimits_only_marks _ low high).2.2.1, q.fv_force, h]

/-- Witness for C5 at the concrete triggered query demoForced. -/
theorem C5_force_visibility_precedence_witness :
    demoForced.effective_visibility = DELETED_VISIBLE ∧
    ((demoForced.check_field_filter ["show_deleted"]).force_visibility).isSome = true ∧
    (demoForced.check_field_filter ["show_deleted"]).force_visibility =
      some DELETED_VISIBLE ∧
    demoForced._filter_visibility.force_visibility = some DELETED_VISIBLE ∧
    demoForced.clone.force_visibility = some DELETED_VISIBLE ∧
    (demoForced.get_compiler).2.force_visibility = some DELETED_VISIBLE ∧
    (demoForced.set_limits none none).force_visibility = some DELETED_VISIBLE := by
  have h := C5_force_visibility_precedence demoForced DELETED_VISIBLE ["show_deleted"]
    none none rfl
  exact ⟨h.1, h.2.1, h.2.2.1 rfl, h.2.2.2.1, h.2.2.2.2.1, h.2.2.2.2.2.1, h.2.2.2.2.2.2⟩

/-- C7: clone copies visibility, visibility_field, filter_applied and the
(always present, default None) force_visibility onto the new instance; state
passing is by value, so after the trigger fires on the clone the parent keeps
its own force_visibility and effective mode, and a clone taken before the
parent mutates keeps the untriggered state. -/
theorem C7_clone_copies_independent (q : SafeDeleteQuery) (kwargs : List String) :
    q.clone.visibility = q.visibility ∧
    q.clone.visibility_field = q.visibility_field ∧
    q.clone.filter_applied = q.filter_applied ∧
    q.clone.force_visibility = q.force_visibility ∧
    ((q.visibility = DELETED_VISIBLE_BY_FIELD ∧ q.visibility_field ∈ kwargs ∧
        q.force_visibility = none) →
      (q.clone.check_field_filter kwargs).force_visibility = some DELETED_VISIBLE ∧
      q.force_visibility = none ∧
      q.effective_visibility = DELETED_VISIBLE_BY_FIELD ∧
      (q.check_field_filter kwargs).force_visibility = some DELETED_VISIBLE ∧
      q.clone.force_visibility = none) := by
  rw [SafeDeleteQuery.clone_eq]
  refine ⟨rfl, rfl, rfl, rfl, fun hall => ?_⟩
  obtain ⟨hv, hk, hf⟩ := hall
  have hcf : q.check_field_filter kwargs = { q with force_visibility := some DELETED_VISIBLE } := by
    unfold SafeDeleteQuery.check_field_filter
    rw [if_pos ⟨hv, hk⟩]
  rw [hcf]
  refine ⟨rfl, hf, ?_, rfl, hf⟩
  unfold SafeDeleteQuery.effective_visibility
  rw [hf, hv]

theorem get_compiler_conds (q : SafeDeleteQuery) :
    (q.get_compiler).1 = { conds := q._filter_visibility.where_ } := rfl

theorem SafeDeleteQuery.fv_visibility_field (q : SafeDeleteQuery) :
    q._filter_visibility.visibility_field = q.visibility_field := by
  unfold SafeDeleteQuery._filter_visibility SafeDeleteQuery.add_q
  split
  · rfl
  · split <;> rfl

theorem fv_where_append (q : SafeDeleteQuery) :
    ∃ l, q._filter_visibility.where_ = q.where_ ++ l := by
  cases hc : q.can_filter with
  | false =>
    exact ⟨[], by rw [q.fv_of_pre_fail (Or.inl hc)]; simp⟩
  | true =>
    cases ha : q.filter_applied with
    | true =>
      exact ⟨[], by rw [q.fv_of_pre_fail (Or.inr ha)]; simp⟩
    | false =>
      by_cases h3 : q.effective_visibility = DELETED_INVISIBLE ∨
        q.effective_visibility = DELETED_VISIBLE_BY_FIELD ∨
        q.effective_visibility = DELETED_ONLY_VISIBLE
      · exact ⟨[injectedCond q.effective_visibility], by rw [q.fv_inject hc ha h3]⟩
      · exact ⟨[], by rw [q.fv_skip_mode h3]; simp⟩

/-- C2: a query with visibility DELETED_VISIBLE_BY_FIELD and no override: if
the visibility field key is not among the keyword arguments of the filter
call, compiling yields the same compiler as for the same query with
visibility DELETED_INVISIBLE; if the key is present, compiling — also after a
clone — yields the same compiler as for the same query with visibility
DELETED_VISIBLE. -/
theorem C2_visible_by_field_refinement (q : SafeDeleteQuery) (kwargs : List String)
    (h1 : q.visibility = DELETED_VISIBLE_BY_FIELD) (h2 : q.force_visibility = none) :
    (q.visibility_field ∉ kwargs →
      ((q.check_field_filter kwargs).get_compiler).1 =
        (({ q with visibility := DELETED_INVISIBLE }).get_compiler).1) ∧
    (q.visibility_field ∈ kwargs →
      ((q.check_field_filter kwargs).get_compiler).1 =
        (({ q with visibility := DELETED_VISIBLE }).get_compiler).1 ∧
      (((q.check_field_filter kwargs).clone).get_compiler).1 =
        ((({ q with visibility := DELETED_VISIBLE }).clone).get_compiler).1) := by
  constructor
  · intro hk
    have hno : q.check_field_filter kwargs = q := by
      unfold SafeDeleteQuery.check_field_filter
      rw [if_neg]
      rintro ⟨_, hkk⟩
      exact hk hkk
    rw [hno, get_compiler_conds, get_compiler_conds]
    by_cases hc : q.can_filter = true
    · by_cases ha : q.filter_applied = true
      · rw [q.fv_of_pre_fail (Or.inr ha),
          SafeDeleteQuery.fv_of_pre_fail { q with visibility := DELETED_INVISIBLE }
            (Or.inr ha)]
      · have ha2 : q.filter_applied = false := by
          rwa [Bool.not_eq_true] at ha
        have he : q.effective_visibility = DELETED_VISIBLE_BY_FIELD := by
          unfold SafeDeleteQuery.effective_visibility
          rw [h2, h1]
        have hnI : ({ q with visibility := DELETED_INVISIBLE } :
            SafeDeleteQuery).force_visibility = none := h2
        have heI : ({ q with visibility := DELETED_INVISIBLE } :
            SafeDeleteQuery).effective_visibility = DELETED_INVISIBLE := by
          unfold SafeDeleteQuery.effective_visibility
          rw [hnI]
        have hcond : injectedCond DELETED_VISIBLE_BY_FIELD =
            injectedCond DELETED_INVISIBLE := by decide
        rw [q.fv_inject hc ha2 (Or.inr (Or.inl he)),
          SafeDeleteQuery.fv_inject { q with visibility := DELETED_INVISIBLE }
            hc ha2 (Or.inl heI), he, heI, hcond]
    · have hc2 : q.can_filter = false := by
        rwa [Bool.not_eq_true] at hc
      rw [q.fv_of_pre_fail (Or.inl hc2),
        SafeDeleteQuery.fv_of_pre_fail { q with visibility := DELETED_INVISIBLE }
          (Or.inl hc2)]
  · intro hk
    have hyes : q.check_field_filter kwargs =
        { q with force_visibility := some DELETED_VISIBLE } := by
      unfold SafeDeleteQuery.check_field_filter
      rw [if_pos ⟨h1, hk⟩]
    have heF : ({ q with force_visibility := some DELETED_VISIBLE } :
        SafeDeleteQuery).effective_visibility = DELETED_VISIBLE := rfl
    have hskipF := SafeDeleteQuery.fv_skip_mode
      { q with force_visibility := some DELETED_VISIBLE } (by rw [heF]; decide)
    have heV : ({ q with visibility := DELETED_VISIBLE } :
        SafeDeleteQuery).effective_visibility = DELETED_VISIBLE := by
      unfold SafeDeleteQuery.effective_visibility
      rw [show ({ q with visibility := DELETED_VISIBLE } :
        SafeDeleteQuery).force_visibility = none from h2]
    have hskipV := SafeDeleteQuery.fv_skip_mode
      { q with visibility := DELETED_VISIBLE } (by rw [heV]; decide)
    constructor
    · rw [hyes, get_compiler_conds, get_compiler_conds, hskipF, hskipV]
    · rw [hyes, SafeDeleteQuery.clone_eq, SafeDeleteQuery.clone_eq,
        get_compiler_conds, get_compiler_conds, hskipF, hskipV]

/-- Witness for C2 at the concrete query demoByField, with the trigger key
absent and present. -/
theorem C2_visible_by_field_refinement_witness :
    ((demoByField.check_field_filter ["other"]).get_compiler).1 =
      (({ demoByField with visibility := DELETED_INVISIBLE }).get_compiler).1 ∧
    ((demoByField.check_field_filter ["show_deleted"]).get_compiler).1 =
      (({ demoByField with visibility := DELETED_VISIBLE }).get_compiler).1 ∧
    (((demoByField.check_field_filter ["show_deleted"]).clone).get_compiler).1 =
      ((({ demoByField with visibility := DELETED_VISIBLE }).clone).get_compiler).1 := by
  have hA := (C2_visible_by_field_refinement demoByField ["other"] rfl rfl).1 (by decide)
  have hB := (C2_visible_by_field_refinement demoByField ["show_deleted"] rfl rfl).2
    (by decide)
  exact ⟨hA, hB.1, hB.2⟩

/-- C8: get_compiler and set_limits apply the visibility filter before
delegating to the host: the compiler reads the already-filtered condition set
and the host row-limiting receives the already-filtered state, so under the
filtering preconditions the deleted-marker conjunct is present before SQL
generation and before any row-limiting. -/
theorem C8_filter_before_delegation (q : SafeDeleteQuery) (low high : Option Nat)
    (h1 : q.can_filter = true) (h2 : q.filter_applied = false)
    (h3 : q.effective_visibility = DELETED_INVISIBLE ∨
      q.effective_visibility = DELETED_VISIBLE_BY_FIELD ∨
      q.effective_visibility = DELETED_ONLY_VISIBLE) :
    ((q.get_compiler).1).conds = q._filter_visibility.where_ ∧
    (q.get_compiler).2 = q._filter_visibility ∧
    (q.set_limits low high).where_ = q._filter_visibility.where_ ∧
    injectedCond q.effective_visibility ∈ ((q.get_compiler).1).conds ∧
    (injectedCond q.effective_visibility).field = FIELD_NAME ∧
    injectedCond q.effective_visibility ∈ (q.set_limits low high).where_ := by
  have hw := (SafeDeleteQuery.hostSetLimits_only_marks (q._filter_visibility) low high).1
  have hinj := q.fv_inject h1 h2 h3
  refine ⟨rfl, rfl, hw, ?_, rfl, ?_⟩
  · show injectedCond q.effective_visibility ∈ q._filter_visibility.where_
    rw [hinj]
    simp
  · show injectedCond q.effective_visibility ∈
      (q._filter_visibility.hostSetLimits low high).where_
    rw [hw, hinj]
    simp

/-- Witness for C8 at the concrete DELETED_INVISIBLE query demoInvisible with
concrete limits. -/
theorem C8_filter_before_delegation_witness :
    ((demoInvisible.get_compiler).1).conds = demoInvisible._filter_visibility.where_ ∧
    (demoInvisible.get_compiler).2 = demoInvisible._filter_visibility ∧
    (demoInvisible.set_limits (some 2) (some 10)).where_ =
      demoInvisible._filter_visibility.where_ ∧
    injectedCond demoInvisible.effective_visibility ∈
      ((demoInvisible.get_compiler).1).conds ∧
    (injectedCond demoInvisible.effective_visibility).field = FIELD_NAME ∧
    injectedCond demoInvisible.effective_visibility ∈
      (demoInvisible.set_limits (some 2) (some 10)).where_ :=
  C8_filter_before_delegation demoInvisible (some 2) (some 10) (by decide) rfl
    (Or.inl (by decide))

/-- C10: no operation removes or alters an injected conjunct —
check_field_filter and clone leave the condition set unchanged,
_filter_visibility and set_limits only append to it, and once filter_applied
is true _filter_visibility is a complete no-op; in particular when the trigger
fires after the isnull conjunct was injected under DELETED_VISIBLE_BY_FIELD,
the conjunct stays in the condition set and a further filter call changes
nothing, so the query still excludes deleted rows. -/
theorem C10_predicate_persistence (q : SafeDeleteQuery) (kwargs : List String)
    (low high : Option Nat) :
    (q.check_field_filter kwargs).where_ = q.where_ ∧
    q.clone.where_ = q.where_ ∧
    (∃ l, q._filter_visibility.where_ = q.where_ ++ l) ∧
    (∃ l, (q.set_limits low high).where_ = q.where_ ++ l) ∧
    (q.filter_applied = true → q._filter_visibility = q) ∧
    ((q.can_filter = true ∧ q.filter_applied = false ∧
        q.visibility = DELETED_VISIBLE_BY_FIELD ∧ q.force_visibility = none ∧
        q.visibility_field ∈ kwargs) →
      (q._filter_visibility.check_field_filter kwargs).force_visibility =
        some DELETED_VISIBLE ∧
      { field := FIELD_NAME, isnull := true } ∈
        (q._filter_visibility.check_field_filter kwargs).where_ ∧
      (q._filter_visibility.check_field_filter kwargs)._filter_visibility =
        q._filter_visibility.check_field_filter kwargs) := by
  refine ⟨?_, ?_, fv_where_append q, ?_, fun h => q.fv_of_pre_fail (Or.inr h), ?_⟩
  · unfold SafeDeleteQuery.check_field_filter
    split <;> rfl
  · rw [SafeDeleteQuery.clone_eq]
  · obtain ⟨l, hl⟩ := fv_where_append q
    refine ⟨l, ?_⟩
    show (q._filter_visibility.hostSetLimits low high).where_ = q.where_ ++ l
    rw [(SafeDeleteQuery.hostSetLimits_only_marks (q._filter_visibility) low high).1, hl]
  · rintro ⟨hc, ha, hv, hf, hk⟩
    have he : q.effective_visibility = DELETED_VISIBLE_BY_FIELD := by
      unfold SafeDeleteQuery.effective_visibility
      rw [hf, hv]
    have hinj := q.fv_inject hc ha (Or.inr (Or.inl he))
    have hv1 : q._filter_visibility.visibility = DELETED_VISIBLE_BY_FIELD :=
      (q.fv_visibility).trans hv
    have hk1 : q._filter_visibility.visibility_field ∈ kwargs := by
      rw [q.fv_visibility_field]
      exact hk
    have hcff : q._filter_visibility.check_field_filter kwargs =
        { q._filter_visibility with force_visibility := some DELETED_VISIBLE } := by
      unfold SafeDeleteQuery.check_field_filter
      rw [if_pos ⟨hv1, hk1⟩]
    have hcnd : ({ field := FIELD_NAME, isnull := true } : WhereCond) =
        injectedCond q.effective_visibility := by
      rw [he]
      decide
    refine ⟨by rw [hcff], ?_, ?_⟩
    · rw [hcff]
      show ({ field := FIELD_NAME, isnull := true } : WhereCond) ∈
        q._filter_visibility.where_
      rw [hinj, hcnd]
      simp
    · apply SafeDeleteQuery.fv_of_pre_fail
      right
      rw [hcff]
      show q._filter_visibility.filter_applied = true
      rw [hinj]

/-- Witness for C10 at the concrete query demoByField: inject first, then fire
the trigger, then call the filter again. -/
theorem C10_predicate_persistence_witness :
    (demoByField.check_field_filter ["show_deleted"]).where_ = demoByField.where_ ∧
    demoByField.clone.where_ = demoByField.where_ ∧
    (∃ l, demoByField._filter_visibility.where_ = demoByField.where_ ++ l) ∧
    (∃ l, (demoByField.set_limits none none).where_ = demoByField.where_ ++ l) ∧
    (demoByField._filter_visibility.check_field_filter ["show_deleted"]).force_visibility =
      some DELETED_VISIBLE ∧
    { field := FIELD_NAME, isnull := true } ∈
      (demoByField._filter_visibility.check_field_filter ["show_deleted"]).where_ ∧
    (demoByField._filter_visibility.check_field_filter ["show_deleted"])._filter_visibility =
      demoByField._filter_visibility.check_field_filter ["show_deleted"] := by
  have h := C10_predicate_persistence demoByField ["show_deleted"] none none
  have h6 := h.2.2.2.2.2 ⟨by decide, rfl, rfl, rfl, by decide⟩
  exact ⟨h.1, h.2.1, h.2.2.1, h.2.2.2.1, h6.1, h6.2.1, h6.2.2⟩

/-- Witness for C7 at the concrete untriggered query demoByField. -/
theorem C7_clone_copies_independent_witness :
    demoByField.clone.visibility = demoByField.visibility ∧
    demoByField.clone.visibility_field = demoByField.visibility_field ∧
    demoByField.clone.filter_applied = demoByField.filter_applied ∧
    demoByField.clone.force_visibility = demoByField.force_visibility ∧
    (demoByField.clone.check_field_filter ["show_deleted"]).force_visibility =
      some DELETED_VISIBLE ∧
    demoByField.force_visibility = none ∧
    demoByField.effective_visibility = DELETED_VISIBLE_BY_FIELD ∧
    (demoByField.check_field_filter ["show_deleted"]).force_visibility =
      some DELETED_VISIBLE ∧
    demoByField.clone.force_visibility = none := by
  have h := C7_clone_copies_independent demoByField ["show_deleted"]
  have h5 := h.2.2.2.2 ⟨rfl, by decide, rfl⟩
  exact ⟨h.1, h.2.1, h.2.2.1, h.2.2.2.1, h5.1, h5.2.1, h5.2.2.1, h5.2.2.2.1, h5.2.2.2.2⟩
